import Mathlib

/-!
Shallow embedding of the hybrid retrieval and answer-composition engine of the
business_assistant repository (backend/services/agent_rag_service.py,
backend/services/langchain_rag_service.py, backend/services/rag_embedding_invoice.py),
together with proofs about its routing, re-ranking, metadata extraction, query
synthesis, memory and error-handling behaviour.

Python strings are modelled as Lean strings (lists of characters); similarity
scores (Python floats) are modelled as rationals; Python sets are modelled as
finite sets, with the unspecified iteration order made explicit as a list
argument where the code iterates a set; fallible database execution is modelled
as an oracle outcome caught by the service code.
-/

namespace BusinessAssistant

/-- Python str.lower(), as a character-wise map (ASCII data). -/
def pyLower (s : String) : String := String.mk (s.toList.map Char.toLower)

/-! ### Character and substring utilities (Python string semantics)

Helpers for the regular-expression fragments and substring tests used by the
services.  Python regex word characters and digits are ASCII here, matching the
data the services handle. -/

/-- A regex word character as in \w: alphanumeric or underscore. -/
def isWordC (c : Char) : Bool := c.isAlphanum || c = '_'

/-- leadsWith pre l: the list l starts with the literal pre. -/
def leadsWith : List Char → List Char → Bool
  | [], _ => true
  | _ :: _, [] => false
  | a :: as, b :: bs => a == b && leadsWith as bs

/-- occursIn needle hay: the Python needle in hay substring test. -/
def occursIn (needle : List Char) : List Char → Bool
  | [] => needle.isEmpty
  | c :: t => leadsWith needle (c :: t) || occursIn needle t

/-- Python needle in hay on strings. -/
def containsPy (hay needle : String) : Bool := occursIn needle.toList hay.toList

/-- Maximal leading digit run, the greedy \d+ after a matched literal. -/
def takeDigits : List Char → List Char
  | [] => []
  | c :: t => if c.isDigit then c :: takeDigits t else []

/-- re.search for a pattern literal(\d+): leftmost occurrence of the literal
followed immediately by at least one digit; returns the greedy digit run. -/
def searchLitThenDigits (lit : List Char) : List Char → Option (List Char)
  | [] => none
  | c :: t =>
    if leadsWith lit (c :: t) && !(takeDigits ((c :: t).drop lit.length)).isEmpty then
      some (takeDigits ((c :: t).drop lit.length))
    else searchLitThenDigits lit t

/-- The list l has, at some offset, the literal lit followed by a digit.
This is the declarative reading of the regex literal(\d+) having a match. -/
def HasLitThenDigit (lit : List Char) (l : List Char) : Prop :=
  ∃ i d rest, l.drop i = lit ++ d :: rest ∧ d.isDigit = true

/-- re.search for \b(\d{5})\b at one position: five digits here, not followed
by a word character (the leading boundary is checked by the caller). -/
def fiveDigitTokenAt : List Char → Option String
  | a :: b :: c :: d :: e :: rest =>
    if (a.isDigit && b.isDigit && c.isDigit && d.isDigit && e.isDigit)
        && (match rest with | [] => true | r :: _ => !isWordC r) then
      some (String.mk [a, b, c, d, e])
    else none
  | _ => none

/-- Scan for the leftmost \b(\d{5})\b match; prev is the character before the
current position, used for the leading word boundary. -/
def searchFiveDigitToken : Option Char → List Char → Option String
  | _, [] => none
  | prev, c :: t =>
    let boundary : Bool := match prev with | none => true | some p => !isWordC p
    match (if boundary then fiveDigitTokenAt (c :: t) else none) with
    | some s => some s
    | none => searchFiveDigitToken (some c) t

/-- re.search(r"\b(\d{5})\b", q): the first bare five-digit token of q, as used
by search_invoices and _rerank_results in rag_embedding_invoice.py. -/
def find_five_digit (q : String) : Option String := searchFiveDigitToken none q.toList

/-! ### Exact-identifier short-circuit (agent_rag_service._is_exact_order_query)

The Python code lowercases the question and tries, in order, the regexes
"order id (\d+)", "order (\d+)", "invoice (\d+)", returning the first captured
digit run, else None.  answer_question takes the direct-lookup path exactly
when a (truthy, hence nonempty) identifier is returned. -/

/-- The lowercased question as a character list. -/
def lowList (s : String) : List Char := (pyLower s).toList

/-- The literal part of the first pattern, order id (\d+). -/
def patOrderId : List Char := "order id ".toList

/-- The literal part of the second pattern, order (\d+). -/
def patOrder : List Char := "order ".toList

/-- The literal part of the third pattern, invoice (\d+). -/
def patInvoice : List Char := "invoice ".toList

def is_exact_order_query (question : String) : Option String :=
  match searchLitThenDigits patOrderId (lowList question) with
  | some ds => some (String.mk ds)
  | none =>
    match searchLitThenDigits patOrder (lowList question) with
    | some ds => some (String.mk ds)
    | none =>
      match searchLitThenDigits patInvoice (lowList question) with
      | some ds => some (String.mk ds)
      | none => none

/-- The two top-level paths of AgentRAGService.answer_question. -/
inductive Route where
  | exactOrder (order_id : String)
  | agentic
deriving DecidableEq

/-- The routing decision at the top of answer_question: the exact-match direct
lookup when _is_exact_order_query returns an identifier, else the agentic
vector-plus-SQL pipeline. -/
def answer_question_route (question : String) : Route :=
  match is_exact_order_query question with
  | some oid => Route.exactOrder oid
  | none => Route.agentic

/-! ### Vector records and search hits

Pinecone metadata of the three record kinds written by store_invoice_vectors
(rag_embedding_invoice.py).  Every field the modelled functions read is kept;
a key absent from a record is none (metadata.get returns None).  order_id is a
string (InvoiceSummary.order_id: str), invoice_id an integer database key.
Numeric display values (total_price) are kept as their rendered strings, since
no modelled claim computes with them. -/

structure Metadata where
  type : Option String
  contact_name : Option String
  order_id : Option String
  product_name : Option String
  invoice_id : Option Nat
  invoice_date : Option String
  total_price : Option String
deriving DecidableEq

/-- A metadata record with every key absent. -/
def Metadata.empty : Metadata := ⟨none, none, none, none, none, none, none⟩

/-- One vector search hit: similarity score (a Python float, modelled in ℚ)
plus the record metadata. -/
structure Hit where
  score : ℚ
  metadata : Metadata
deriving DecidableEq

/-! ### Result re-ranker (rag_embedding_invoice._rerank_results)

The Python code mutates each match in place: if the query has a bare five-digit
token equal to the order_id of a hit, that score is increased by 0.3, then the
score of every invoice-type hit is increased by 0.1, and finally the list is sorted by
score descending (Python sorted, a stable sort).  The per-hit score update is
boostHit; the stable descending sort is sortDesc. -/

/-- The first boost rule fires on a hit: the query holds a \b\d{5}\b token and
it equals the order_id string of the hit. -/
def orderBoost (q : String) (h : Hit) : Bool :=
  match find_five_digit q with
  | some oid => h.metadata.order_id == some oid
  | none => false

/-- Both in-place score updates of _rerank_results applied to one hit:
+0.3 for an exact order-identifier match, then +0.1 for an invoice record. -/
def boostHit (q : String) (h : Hit) : Hit :=
  let h1 := if orderBoost q h then { h with score := h.score + 3/10 } else h
  if h1.metadata.type == some "invoice" then { h1 with score := h1.score + 1/10 } else h1

/-- The total score adjustment _rerank_results applies to a hit. -/
def boostAmount (q : String) (h : Hit) : ℚ :=
  (if orderBoost q h then (3 : ℚ)/10 else 0)
    + (if h.metadata.type == some "invoice" then (1 : ℚ)/10 else 0)

/-- Stable descending insertion: the new hit goes after every element whose
score is greater than or equal to its own, as Python sorted with reverse=True
keeps equal-key elements in encounter order. -/
def insDesc (h : Hit) : List Hit → List Hit
  | [] => [h]
  | x :: xs => if h.score ≤ x.score then x :: insDesc h xs else h :: x :: xs

/-- Python sorted(key=score, reverse=True): a stable sort by score descending. -/
def sortDesc (l : List Hit) : List Hit := l.foldl (fun acc h => insDesc h acc) []

/-- _rerank_results: apply both boosts to every hit, then stable-sort by the
adjusted score descending. -/
def rerank_results (hits : List Hit) (q : String) : List Hit :=
  sortDesc (hits.map (boostHit q))

/-- Hits pairwise ordered by nonincreasing score. -/
def SortedDesc (l : List Hit) : Prop := l.Pairwise (fun a b => b.score ≤ a.score)

/-! ### Metadata extractor (agent_rag_service._extract_metadata_context)

The Python code folds over the hits, inserting truthy contact_name, order_id,
product_name into sets, truthy invoice_id into a set, and widening the date
range by string comparison on truthy invoice_date.  The five update blocks
touch disjoint fields, so the step is written field-wise. -/

/-- Python truthiness of an optional string: None and the empty string are
falsy. -/
def truthyStr : Option String → Option String
  | some s => if s = "" then none else some s
  | none => none

/-- The min side of the date-range update: replace when unset (falsy) or when
the new date compares smaller. -/
def updateMin : Option String → String → Option String
  | none, d => some d
  | some m, d => if m = "" ∨ d < m then some d else some m

/-- The max side of the date-range update. -/
def updateMax : Option String → String → Option String
  | none, d => some d
  | some m, d => if m = "" ∨ m < d then some d else some m

/-- The filter context dictionary built by _extract_metadata_context. -/
structure FilterContext where
  customers : Finset String
  order_ids : Finset String
  products : Finset String
  invoice_ids : Finset Nat
  date_min : Option String
  date_max : Option String
  total_results : Nat
deriving DecidableEq

/-- The initial context: empty sets, unset date range, total_results already
fixed to the hit count. -/
def emptyContext (n : Nat) : FilterContext := ⟨∅, ∅, ∅, ∅, none, none, n⟩

/-- One loop iteration of _extract_metadata_context over the metadata of a hit. -/
def extractStep (ctx : FilterContext) (m : Metadata) : FilterContext :=
  { customers := match truthyStr m.contact_name with
      | some s => insert s ctx.customers
      | none => ctx.customers
    order_ids := match truthyStr m.order_id with
      | some s => insert s ctx.order_ids
      | none => ctx.order_ids
    products := match truthyStr m.product_name with
      | some s => insert s ctx.products
      | none => ctx.products
    invoice_ids := match m.invoice_id with
      | some n => if n ≠ 0 then insert n ctx.invoice_ids else ctx.invoice_ids
      | none => ctx.invoice_ids
    date_min := match truthyStr m.invoice_date with
      | some d => updateMin ctx.date_min d
      | none => ctx.date_min
    date_max := match truthyStr m.invoice_date with
      | some d => updateMax ctx.date_max d
      | none => ctx.date_max
    total_results := ctx.total_results }

/-- _extract_metadata_context: fold the per-hit step over all hits. -/
def extract_metadata_context (hits : List Hit) : FilterContext :=
  hits.foldl (fun ctx h => extractStep ctx h.metadata) (emptyContext hits.length)

/-- The entity and date content of a context, everything except total_results. -/
def ctxData (c : FilterContext) :
    Finset String × Finset String × Finset String × Finset Nat × Option String × Option String :=
  (c.customers, c.order_ids, c.products, c.invoice_ids, c.date_min, c.date_max)

/-! ### Strategy selection

Two selectors exist in the source.  agent_rag_service._needs_sql_query tests a
fixed keyword list against the lowercased question and falls back to entity
presence in the filter context.  langchain_rag_service._determine_strategy
tests its pattern strings with the Python substring operator, so the raw
regular-expression texts in direct_sql_patterns are compared literally,
backslashes included. -/

def sql_keywords : List String :=
  ["how many", "count", "total", "sum", "average", "most", "least",
   "top", "bottom", "all orders", "all customers", "all products"]

/-- agent_rag_service._needs_sql_query. -/
def needs_sql_query (question : String) (ctx : FilterContext) : Bool :=
  sql_keywords.any (fun k => containsPy (pyLower question) k)
    || decide (0 < ctx.customers.card) || decide (0 < ctx.order_ids.card)

/-- The pattern strings of _determine_strategy, exactly as written in the
source: raw regex texts such as order id \d+, used with the substring test. -/
def direct_sql_patterns : List String :=
  ["order id \\d+", "invoice \\d+", "order \\d+",
   "customer \\w+", "total price \\d+", "dated \\d+"]

def vector_patterns : List String :=
  ["product", "item", "contains", "includes", "what products"]

/-- langchain_rag_service._determine_strategy: any pattern occurring in the
lowercased question (as a literal substring) selects direct_sql, else any
vector pattern or the default selects vector_search. -/
def determine_strategy (question : String) : String :=
  let ql := pyLower question
  if direct_sql_patterns.any (fun p => containsPy ql p) then "direct_sql"
  else if vector_patterns.any (fun p => containsPy ql p) then "vector_search"
  else "vector_search"

/-- Modelled from the spec: the named-entity structural pattern of the strategy
selector, the raw pattern customer \w+ read as a regular expression — the
literal customer followed by a space and a word character, anywhere in the
lowercased question. -/
def spec_named_entity_matches (question : String) : Bool :=
  matchLitThenWordChar "customer ".toList (pyLower question).toList
where
  matchLitThenWordChar (lit : List Char) : List Char → Bool
    | [] => false
    | c :: t =>
      (leadsWith lit (c :: t) &&
        (match (c :: t).drop lit.length with
         | [] => false
         | d :: _ => isWordC d)) || matchLitThenWordChar lit t

/-! ### Structured query synthesizer (agent_rag_service._build_targeted_sql)

The Python code joins the customer and order-identifier sets of the filter
context directly into the query string.  A Python set has no specified
iteration order, so the enumeration order the join sees is made explicit here
as the customers/order_ids list arguments: the lists enumerate the
corresponding sets of the filter context in iteration order. -/

def build_targeted_sql (question : String) (customers order_ids : List String)
    (user_id : Option Nat) : String :=
  let base1 : List String := match user_id with
    | some uid => if uid ≠ 0 then ["i.user_id = " ++ toString uid] else []
    | none => []
  let base2 : List String := base1 ++
    (if customers.isEmpty then []
     else ["i.contact_name IN (\x27" ++ String.intercalate "\x27, \x27" customers ++ "\x27)"])
  let base3 : List String := base2 ++
    (if order_ids.isEmpty then []
     else ["i.order_id IN (\x27" ++ String.intercalate "\x27, \x27" order_ids ++ "\x27)"])
  let where_clause := if base3.isEmpty then "1=1" else String.intercalate " AND " base3
  let ql := pyLower question
  if ["how many orders", "count orders"].any (fun w => containsPy ql w) then
    "\n                SELECT COUNT(DISTINCT i.order_id) as order_count,\n                       COUNT(DISTINCT i.contact_name) as customer_count\n                FROM invoices i WHERE "
      ++ where_clause ++ "\n            "
  else if ["total spent", "how much", "total amount"].any (fun w => containsPy ql w) then
    "\n                SELECT i.contact_name, SUM(i.total_price) as total_spent,\n                       COUNT(i.order_id) as order_count\n                FROM invoices i WHERE "
      ++ where_clause
      ++ "\n                GROUP BY i.contact_name\n                ORDER BY total_spent DESC\n            "
  else if ["most ordered", "popular product", "top product"].any (fun w => containsPy ql w) then
    "\n                SELECT li.product_name, SUM(li.quantity) as total_quantity,\n                       COUNT(DISTINCT i.order_id) as order_count\n                FROM invoices i\n                JOIN line_items li ON i.id = li.invoice_id\n                WHERE "
      ++ where_clause
      ++ "\n                GROUP BY li.product_name\n                ORDER BY total_quantity DESC\n                LIMIT 10\n            "
  else
    "\n                SELECT i.order_id, i.contact_name, i.invoice_date, i.total_price,\n                       li.product_name, li.quantity, li.unit_price\n                FROM invoices i\n                LEFT JOIN line_items li ON i.id = li.invoice_id\n                WHERE "
      ++ where_clause
      ++ "\n                ORDER BY i.invoice_date DESC\n                LIMIT 50\n            "

/-! ### Structured query execution (_execute_sql_query, identical in both
services)

db.execute either returns rows or raises; the service catches every exception
and turns it into a single error row.  The database outcome is the oracle
input; the function below is the try/except body. -/

/-- One result row: an ordered mapping of column name to rendered value. -/
structure SqlRow where
  fields : List (String × String)
deriving DecidableEq

/-- The single-row error record built in the except branch. -/
def errorRow (msg : String) : SqlRow := ⟨[("error", msg)]⟩

/-- What the underlying database call does: return rows, or raise. -/
inductive DbOutcome where
  | ok (rows : List SqlRow)
  | fail (msg : String)

/-- _execute_sql_query: pass rows through, catch a raise as an error row. -/
def execute_sql_query (outcome : DbOutcome) : List SqlRow :=
  match outcome with
  | DbOutcome.ok rows => rows
  | DbOutcome.fail e => [errorRow e]

/-- Python key in dict on a row. -/
def hasKey (r : SqlRow) (k : String) : Bool := r.fields.any (fun p => p.1 == k)

/-- A stand-in for json.dumps(results, indent=2, default=str); its exact
rendering is irrelevant to every claim, only that it is reached. -/
def jsonDumpRows (rows : List SqlRow) : String :=
  "[" ++ String.intercalate ", "
    (rows.map (fun r =>
      "\x7b" ++ String.intercalate ", "
        (r.fields.map (fun p => "\x22" ++ p.1 ++ "\x22: \x22" ++ p.2 ++ "\x22")) ++ "\x7d")) ++ "]"

/-- agent_rag_service._format_sql_context: empty results or a lone error row
render as the fixed no-data marker, anything else as serialized JSON. -/
def format_sql_context (results : List SqlRow) : String :=
  if results.isEmpty || (results.length == 1 && hasKey (results.headD ⟨[]⟩) "error") then
    "No structured data available"
  else jsonDumpRows results

/-! ### Conversational memory (langchain_rag_service)

The service stores a langchain ConversationBufferWindowMemory(k=5,
return_messages=True) per session.  In that library class, save_context
appends the human and ai messages to the underlying chat history and never
evicts; the window of k exchanges exists only in the buffer view
(messages[-2*k:] when k > 0, else []), which only load_memory_variables uses.
get_conversation_history reads the underlying chat history directly. -/

inductive ChatMsg where
  | human (content : String)
  | ai (content : String)
deriving DecidableEq

/-- A session memory: the window parameter k and the underlying chat history. -/
structure WindowMemory where
  k : Nat
  messages : List ChatMsg
deriving DecidableEq

/-- memory.save_context({input: q}, {output: a}): append both messages;
no eviction happens here. -/
def save_context (m : WindowMemory) (input output : String) : WindowMemory :=
  { m with messages := m.messages ++ [ChatMsg.human input, ChatMsg.ai output] }

/-- The windowed buffer view of the library memory: messages[-2*k:] when
k > 0, else []. The service never reads it. -/
def bufferView (m : WindowMemory) : List ChatMsg :=
  if 0 < m.k then m.messages.drop (m.messages.length - 2 * m.k) else []

/-- get_memory for a session key not seen before: a fresh window memory with
k = 5 and no messages. -/
def get_memory_fresh : WindowMemory := { k := 5, messages := [] }

/-- get_conversation_history: every message of the underlying chat history as
a (role, content) record. -/
def get_conversation_history (m : WindowMemory) : List (String × String) :=
  m.messages.map fun msg =>
    match msg with
    | ChatMsg.human c => ("human", c)
    | ChatMsg.ai c => ("assistant", c)

/-- A run of answer_question calls against one session, restricted to its
memory effect: each exchange is stored through save_context. -/
def appendExchanges (m : WindowMemory) (exchanges : List (String × String)) : WindowMemory :=
  exchanges.foldl (fun acc qa => save_context acc qa.1 qa.2) m

/-! ### Semantic context composition (langchain_rag_service._format_vector_context)

The loop runs over results[:3] only; a line is appended when the score of a hit
exceeds 0.7 and its record type is invoice; otherwise the fixed marker string
is returned. -/

/-- Python str(x) of an optional field: an absent key renders as None. -/
def pyStr (o : Option String) : String :=
  match o with
  | some s => s
  | none => "None"

/-- The f-string line rendered per qualifying invoice hit. -/
def renderInvoiceLine (m : Metadata) : String :=
  "Invoice " ++ pyStr m.order_id ++ ": " ++ pyStr m.contact_name
    ++ ", Date: " ++ pyStr m.invoice_date ++ ", Total: $" ++ pyStr m.total_price

/-- The filter a hit among the first three must pass to contribute a line. -/
def qualifiesLC (r : Hit) : Bool :=
  decide ((7 : ℚ)/10 < r.score) && r.metadata.type == some "invoice"

/-- The body of the loop of _format_vector_context for one hit: a rendered
line when the hit clears the 0.7 threshold and is an invoice record, else
nothing. -/
def contextLine (r : Hit) : Option String :=
  if (7 : ℚ)/10 < r.score then
    if r.metadata.type == some "invoice" then some (renderInvoiceLine r.metadata)
    else none
  else none

/-- langchain_rag_service._format_vector_context. -/
def format_vector_context (results : List Hit) : String :=
  let parts := (results.take 3).filterMap contextLine
  if parts.isEmpty then "No highly relevant results found."
  else String.intercalate "\n" parts

/-! ### Concrete instances used by witnesses and counterexamples -/

/-- A non-invoice hit scoring well above the relevance threshold. -/
def hitLineItemHigh : Hit := ⟨9/10, { Metadata.empty with type := some "line_item" }⟩

/-- An invoice hit for order 12345. -/
def hitInvoice12345 : Hit :=
  ⟨1, { Metadata.empty with type := some "invoice", order_id := some "12345" }⟩

/-- A line-item hit with no boost-relevant fields. -/
def hitPlainA : Hit := ⟨1/2, { Metadata.empty with type := some "line_item" }⟩

/-- Another boost-free line-item hit with a different score. -/
def hitPlainB : Hit := ⟨3/4, { Metadata.empty with type := some "line_item" }⟩

/-- A hit whose metadata is entirely absent. -/
def emptyHit : Hit := ⟨0, Metadata.empty⟩

/-- A hit carrying a customer and an order identifier. -/
def hitNamedCustomer : Hit :=
  ⟨2/5, { Metadata.empty with contact_name := some "Mario Pontes", order_id := some "10252" }⟩

/-- A fresh session memory after six stored exchanges. -/
def sixExchangeMemory : WindowMemory :=
  appendExchanges get_memory_fresh
    [("q1", "a1"), ("q2", "a2"), ("q3", "a3"), ("q4", "a4"), ("q5", "a5"), ("q6", "a6")]

/-! ## Theorems -/

/-! ### Search correctness for the literal-then-digits pattern -/

theorem leadsWith_append (lit xs : List Char) : leadsWith lit (lit ++ xs) = true := by
  induction lit with
  | nil => rfl
  | cons a as ih => simp [leadsWith, ih]

theorem searchLitThenDigits_isSome (lit : List Char) :
    ∀ l : List Char, HasLitThenDigit lit l → (searchLitThenDigits lit l).isSome := by
  intro l
  induction l with
  | nil =>
    rintro ⟨i, d, rest, h, -⟩
    rw [List.drop_nil] at h
    exact absurd h.symm (List.append_ne_nil_of_right_ne_nil lit (by simp))
  | cons c t ih =>
    rintro ⟨i, d, rest, h, hd⟩
    cases i with
    | zero =>
      rw [List.drop_zero] at h
      have hcond : (leadsWith lit (c :: t) &&
          !(takeDigits ((c :: t).drop lit.length)).isEmpty) = true := by
        rw [h, List.drop_left, leadsWith_append]
        simp [takeDigits, hd]
      simp [searchLitThenDigits, hcond]
    | succ i =>
      have ht : (searchLitThenDigits lit t).isSome := by
        refine ih ⟨i, d, rest, ?_, hd⟩
        simpa using h
      rw [searchLitThenDigits]
      split
      · simp
      · exact ht

theorem route_of_some {q : String} {oid : String} (h : is_exact_order_query q = some oid) :
    answer_question_route q = Route.exactOrder oid := by
  unfold answer_question_route
  rw [h]

/-! ### C1 -/

/-- C1 (amended): whenever the lowercased question contains one of the literal
prefixes order id, order or invoice followed by a space and a digit run,
answer_question takes the exact-match direct structured lookup path for some
extracted identifier, bypassing strategy classification and ranking,
regardless of any other content of the question. -/
theorem C1_prefixed_identifier_short_circuits (question : String)
    (h : HasLitThenDigit patOrderId (lowList question) ∨
         HasLitThenDigit patOrder (lowList question) ∨
         HasLitThenDigit patInvoice (lowList question)) :
    ∃ oid, answer_question_route question = Route.exactOrder oid := by
  suffices hs : (is_exact_order_query question).isSome by
    rcases Option.isSome_iff_exists.mp hs with ⟨oid, hoid⟩
    exact ⟨oid, route_of_some hoid⟩
  unfold is_exact_order_query
  cases h1 : searchLitThenDigits patOrderId (lowList question) with
  | some ds => simp
  | none =>
    cases h2 : searchLitThenDigits patOrder (lowList question) with
    | some ds => simp
    | none =>
      cases h3 : searchLitThenDigits patInvoice (lowList question) with
      | some ds => simp
      | none =>
        rcases h with h | h | h
        · exact absurd (searchLitThenDigits_isSome _ _ h) (by simp [h1])
        · exact absurd (searchLitThenDigits_isSome _ _ h) (by simp [h2])
        · exact absurd (searchLitThenDigits_isSome _ _ h) (by simp [h3])

theorem C1_prefixed_identifier_short_circuits_witness :
    ∃ oid, answer_question_route "what is order id 10252 total" = Route.exactOrder oid :=
  C1_prefixed_identifier_short_circuits _
    (Or.inl ⟨8, '1', "0252 total".toList, by decide, by decide⟩)

/-- C1 (counterexample): the question contains the valid fixed-width numeric
identifier token 10252 (the very \b\d{5}\b token the engine recognizes
elsewhere as an order identifier), yet answer_question does not resolve it via
the exact-match direct lookup path: the short-circuit fires only when an
order, order id or invoice word precedes the digits. -/
theorem C1_counterexample_bare_token_not_short_circuited :
    find_five_digit "What is 10252 about" = some "10252" ∧
    answer_question_route "What is 10252 about" = Route.agentic := by
  constructor
  · decide
  · decide

/-! ### C2 -/

/-- C2: the question customer alice matches the named-entity structural
pattern of the specification (the raw pattern customer \w+ read as a regular
expression), yet the langchain strategy selector classifies it vector_search,
because the raw pattern text is compared as a literal substring; the selector
answers direct_sql only to questions containing that literal text, and the
agent-side selector does not recognize the question either once the filter
context is empty. -/
theorem C2_structural_patterns_never_fire :
    spec_named_entity_matches "customer alice" = true ∧
    determine_strategy "customer alice" = "vector_search" ∧
    determine_strategy "customer \\w+" = "direct_sql" ∧
    needs_sql_query "customer alice" (emptyContext 0) = false := by
  refine ⟨by decide, by decide, by decide, by decide⟩

/-! ### C3 -/

/-- C3: after appending k+1 = 6 exchanges to a fresh session with window size
k = 5, the history operation returns all 12 messages (6 exchanges) and the
oldest exchange is still present; the sliding window exists only in the
buffer view (10 messages), which get_conversation_history never reads, so the
claimed FIFO eviction law fails on the code. -/
theorem C3_history_keeps_all_exchanges :
    (get_conversation_history sixExchangeMemory).length = 12 ∧
    ("human", "q1") ∈ get_conversation_history sixExchangeMemory ∧
    (bufferView sixExchangeMemory).length = 10 := by
  refine ⟨by decide, by decide, by decide⟩

/-! ### C4 -/

theorem perm_eq_of_length_le_one {α : Type _} {l1 l2 : List α}
    (hlen : l1.length ≤ 1) (h : l1.Perm l2) : l1 = l2 := by
  cases l1 with
  | nil => exact (h.symm.eq_nil).symm
  | cons a t =>
    cases t with
    | nil =>
      have h2 := h.length_eq
      cases l2 with
      | nil => simp at h2
      | cons b t2 =>
        cases t2 with
        | nil =>
          have hab : a = b := by
            have := h.mem_iff.mp (List.mem_singleton_self a)
            simpa using this
          rw [hab]
        | cons c t3 => simp at h2
    | cons b t2 => simp at hlen

/-- C4 (counterexample): the two runs are given the same customer set
(as a set) but enumerate it in the two iteration orders a Python set may
present across processes, and the synthesized query texts differ, so identical
(question, filters, tenant) inputs do not guarantee identical query text. -/
theorem C4_counterexample_set_order_changes_query :
    (["alice", "bob"] : List String).toFinset = (["bob", "alice"] : List String).toFinset ∧
    build_targeted_sql "orders" ["alice", "bob"] [] none ≠
      build_targeted_sql "orders" ["bob", "alice"] [] none := by
  constructor
  · decide
  · set_option maxRecDepth 10000 in decide

/-- C4 (amended): structured-query synthesis is a pure function of the
question, the tenant and the enumeration order of the customer and
order-identifier sets; whenever each of those sets has at most one element
(so that iteration order cannot differ), equal sets yield character-for-
character identical query text across runs. -/
theorem C4_synthesis_deterministic_small_sets (question : String)
    (c1 c2 o1 o2 : List String) (user_id : Option Nat)
    (hc1 : c1.length ≤ 1) (ho1 : o1.length ≤ 1)
    (hc : c1.Perm c2) (ho : o1.Perm o2) :
    build_targeted_sql question c1 o1 user_id = build_targeted_sql question c2 o2 user_id := by
  rw [perm_eq_of_length_le_one hc1 hc, perm_eq_of_length_le_one ho1 ho]

theorem C4_synthesis_deterministic_small_sets_witness :
    build_targeted_sql "how many orders" ["alice"] ["10252"] (some 7) =
      build_targeted_sql "how many orders" ["alice"] ["10252"] (some 7) :=
  C4_synthesis_deterministic_small_sets "how many orders" ["alice"] ["alice"]
    ["10252"] ["10252"] (some 7) (by decide) (by decide)
    (List.Perm.refl _) (List.Perm.refl _)


theorem boostHit_eq (q : String) (h : Hit) :
    boostHit q h = { h with score := h.score + boostAmount q h } := by
  unfold boostHit boostAmount
  cases hb : orderBoost q h <;> cases ht : h.metadata.type == some "invoice" <;>
    simp [hb, ht, add_assoc]

theorem boostHit_metadata (q : String) (h : Hit) : (boostHit q h).metadata = h.metadata := by
  rw [boostHit_eq]

theorem boostAmount_nonneg (q : String) (h : Hit) : 0 ≤ boostAmount q h := by
  unfold boostAmount
  split_ifs <;> norm_num

theorem boostAmount_congr {h1 h2 : Hit} (q : String) (hmeta : h1.metadata = h2.metadata) :
    boostAmount q h1 = boostAmount q h2 := by
  unfold boostAmount orderBoost
  rw [hmeta]

theorem insDesc_perm (h : Hit) (l : List Hit) : (insDesc h l).Perm (h :: l) := by
  induction l with
  | nil => exact List.Perm.refl _
  | cons x xs ih =>
    unfold insDesc
    split_ifs with hle
    · exact (ih.cons x).trans (List.Perm.swap h x xs)
    · exact List.Perm.refl _

theorem foldl_ins_perm (l : List Hit) :
    ∀ acc : List Hit,
      (List.foldl (fun acc h => insDesc h acc) acc l).Perm (acc ++ l) := by
  induction l with
  | nil => intro acc; simp
  | cons h t ih =>
    intro acc
    rw [List.foldl_cons]
    refine (ih _).trans ?_
    refine ((insDesc_perm h acc).append_right t).trans ?_
    exact List.perm_middle.symm

theorem sortDesc_perm (l : List Hit) : (sortDesc l).Perm l := by
  simpa using foldl_ins_perm l []

theorem insDesc_sorted (h : Hit) (l : List Hit) (hs : SortedDesc l) :
    SortedDesc (insDesc h l) := by
  induction l with
  | nil => simp [insDesc, SortedDesc]
  | cons x xs ih =>
    rcases List.pairwise_cons.mp hs with ⟨hx, hxs⟩
    unfold insDesc
    split_ifs with hle
    · refine List.pairwise_cons.mpr ⟨?_, ih hxs⟩
      intro b hb
      rcases List.mem_cons.mp ((insDesc_perm h xs).mem_iff.mp hb) with rfl | hbxs
      · exact hle
      · exact hx b hbxs
    · rw [not_le] at hle
      refine List.pairwise_cons.mpr ⟨?_, hs⟩
      intro b hb
      rcases List.mem_cons.mp hb with rfl | hbxs
      · exact le_of_lt hle
      · exact le_trans (hx b hbxs) (le_of_lt hle)

theorem foldl_ins_sorted (l : List Hit) :
    ∀ acc : List Hit, SortedDesc acc →
      SortedDesc (List.foldl (fun acc h => insDesc h acc) acc l) := by
  induction l with
  | nil => intro acc hacc; exact hacc
  | cons h t ih => intro acc hacc; exact ih _ (insDesc_sorted h acc hacc)

theorem sortDesc_sorted (l : List Hit) : SortedDesc (sortDesc l) :=
  foldl_ins_sorted l [] (List.Pairwise.nil)

theorem insDesc_of_all_ge (h : Hit) (l : List Hit)
    (hall : ∀ x ∈ l, h.score ≤ x.score) : insDesc h l = l ++ [h] := by
  induction l with
  | nil => rfl
  | cons x xs ih =>
    unfold insDesc
    rw [if_pos (hall x (List.mem_cons_self x xs))]
    rw [ih (fun y hy => hall y (List.mem_cons_of_mem x hy))]
    rfl

theorem foldl_ins_of_sorted (l : List Hit) :
    ∀ acc : List Hit, SortedDesc (acc ++ l) →
      List.foldl (fun acc h => insDesc h acc) acc l = acc ++ l := by
  induction l with
  | nil => intro acc _; simp
  | cons h t ih =>
    intro acc hs
    have h1 : insDesc h acc = acc ++ [h] := by
      refine insDesc_of_all_ge h acc ?_
      intro x hx
      exact (List.pairwise_append.mp hs).2.2 x hx h (List.mem_cons_self h t)
    rw [List.foldl_cons, h1]
    have hs2 : SortedDesc ((acc ++ [h]) ++ t) := by
      simpa [List.append_assoc] using hs
    rw [ih _ hs2]
    simp

theorem sortDesc_eq_of_sorted (l : List Hit) (hs : SortedDesc l) : sortDesc l = l := by
  simpa using foldl_ins_of_sorted l [] (by simpa using hs)

/-- C5: re-ranking is monotonic in score: every hit reappears in the re-ranked
output with its metadata intact and a score no lower than before; the
adjustment is exactly the sum of two additive, independent boosts, +0.3 when
the question carries an identifier token equal to the order identifier of the
hit and +0.1 when the record type is invoice, and a single hit can receive
both. -/
theorem C5_rerank_monotone (q : String) (hits : List Hit) (h : Hit) (hm : h ∈ hits) :
    ∃ h2 ∈ rerank_results hits q,
      h2.metadata = h.metadata ∧ h.score ≤ h2.score ∧
      h2.score = h.score + (if orderBoost q h then (3 : ℚ)/10 else 0)
                         + (if h.metadata.type == some "invoice" then (1 : ℚ)/10 else 0) := by
  refine ⟨boostHit q h, ?_, boostHit_metadata q h, ?_, ?_⟩
  · exact (sortDesc_perm _).mem_iff.mpr (List.mem_map_of_mem _ hm)
  · rw [boostHit_eq]
    simpa using boostAmount_nonneg q h
  · rw [boostHit_eq]
    unfold boostAmount
    ring

theorem C5_witness :
    ∃ h2 ∈ rerank_results [hitInvoice12345] "total for 12345",
      h2.metadata = hitInvoice12345.metadata ∧ hitInvoice12345.score ≤ h2.score ∧
      h2.score = hitInvoice12345.score
          + (if orderBoost "total for 12345" hitInvoice12345 then (3 : ℚ)/10 else 0)
          + (if hitInvoice12345.metadata.type == some "invoice" then (1 : ℚ)/10 else 0) :=
  C5_rerank_monotone "total for 12345" [hitInvoice12345] hitInvoice12345 (List.Mem.head _)

/-- C6: when no adjustment rule fires on any hit (no exact order-identifier
match for the question and no invoice-type record), re-ranking is idempotent:
applying it to its own output returns that output unchanged, the stable-sort
stability law. -/
theorem C6_rerank_idempotent (q : String) (hits : List Hit)
    (hno : ∀ h ∈ hits, orderBoost q h = false ∧ h.metadata.type ≠ some "invoice") :
    rerank_results (rerank_results hits q) q = rerank_results hits q := by
  have hid : ∀ l : List Hit,
      (∀ h ∈ l, orderBoost q h = false ∧ h.metadata.type ≠ some "invoice") →
      l.map (boostHit q) = l := by
    intro l hl
    have hpt : ∀ h ∈ l, boostHit q h = h := by
      intro h hh
      rcases hl h hh with ⟨h1, h2⟩
      rw [boostHit_eq]
      have hz : boostAmount q h = 0 := by
        unfold boostAmount
        rw [h1]
        simp [h2]
      simp [hz]
    calc l.map (boostHit q) = l.map id := List.map_congr_left hpt
      _ = l := List.map_id l
  have e1 : rerank_results hits q = sortDesc hits := by
    rw [rerank_results, hid hits hno]
  have hno2 : ∀ h ∈ sortDesc hits, orderBoost q h = false ∧ h.metadata.type ≠ some "invoice" :=
    fun h hh => hno h ((sortDesc_perm hits).mem_iff.mp hh)
  rw [e1, rerank_results, hid _ hno2]
  exact sortDesc_eq_of_sorted _ (sortDesc_sorted hits)

theorem C6_witness :
    rerank_results (rerank_results [hitPlainA, hitPlainB] "hello") "hello" =
      rerank_results [hitPlainA, hitPlainB] "hello" :=
  C6_rerank_idempotent "hello" [hitPlainA, hitPlainB] (by decide)

/-- C10: the re-ranked sequence carries the boosted hit records themselves:
the input hit reappears with its score field already incremented by the
applicable boosts (the pre-boost score is not preserved in the output), and
applying rerank again to that output compounds the boosts, adding the same
adjustment a second time. -/
theorem C10_rerank_compounds (q : String) (hits : List Hit) (h : Hit) (hm : h ∈ hits) :
    (∃ h1 ∈ rerank_results hits q,
        h1 = boostHit q h ∧ h1.score = h.score + boostAmount q h) ∧
    (∃ h2 ∈ rerank_results (rerank_results hits q) q,
        h2.metadata = h.metadata ∧ h2.score = h.score + 2 * boostAmount q h) := by
  have hm1 : boostHit q h ∈ rerank_results hits q :=
    (sortDesc_perm _).mem_iff.mpr (List.mem_map_of_mem _ hm)
  constructor
  · exact ⟨boostHit q h, hm1, rfl, by rw [boostHit_eq]⟩
  · refine ⟨boostHit q (boostHit q h),
      (sortDesc_perm _).mem_iff.mpr (List.mem_map_of_mem _ hm1), ?_, ?_⟩
    · rw [boostHit_metadata, boostHit_metadata]
    · have hz : boostAmount q
          ({ score := h.score + boostAmount q h, metadata := h.metadata } : Hit)
          = boostAmount q h := boostAmount_congr q rfl
      rw [boostHit_eq q (boostHit q h), boostHit_eq q h]
      simp only []
      rw [hz]
      ring

theorem C10_witness :
    (∃ h1 ∈ rerank_results [hitInvoice12345] "order total 12345 please",
        h1 = boostHit "order total 12345 please" hitInvoice12345 ∧
        h1.score = hitInvoice12345.score + boostAmount "order total 12345 please" hitInvoice12345) ∧
    (∃ h2 ∈ rerank_results (rerank_results [hitInvoice12345] "order total 12345 please")
        "order total 12345 please",
        h2.metadata = hitInvoice12345.metadata ∧
        h2.score = hitInvoice12345.score
          + 2 * boostAmount "order total 12345 please" hitInvoice12345) :=
  C10_rerank_compounds "order total 12345 please" [hitInvoice12345] hitInvoice12345
    (List.Mem.head _)


theorem extractStep_empty (c : FilterContext) : extractStep c Metadata.empty = c := rfl

theorem extract_total_shift (l : List Hit) :
    ∀ (c : FilterContext) (n : Nat),
      List.foldl (fun ctx hh => extractStep ctx hh.metadata) { c with total_results := n } l
        = { List.foldl (fun ctx hh => extractStep ctx hh.metadata) c l with total_results := n } := by
  induction l with
  | nil => intro c n; rfl
  | cons x t ih =>
    intro c n
    rw [List.foldl_cons, List.foldl_cons]
    have e : extractStep { c with total_results := n } x.metadata
        = { extractStep c x.metadata with total_results := n } := rfl
    rw [e]
    exact ih (extractStep c x.metadata) n

theorem updateMin_some_self (d : String) : updateMin (some d) d = some d := by
  simp only [updateMin]
  split_ifs <;> rfl

theorem updateMin_idem (cur : Option String) (d : String) :
    updateMin (updateMin cur d) d = updateMin cur d := by
  cases cur with
  | none => exact updateMin_some_self d
  | some m =>
    by_cases h : m = "" ∨ d < m
    · have e : updateMin (some m) d = some d := by
        simp only [updateMin]
        rw [if_pos h]
      rw [e]
      exact updateMin_some_self d
    · have e : updateMin (some m) d = some m := by
        simp only [updateMin]
        rw [if_neg h]
      rw [e]
      exact e

theorem updateMax_some_self (d : String) : updateMax (some d) d = some d := by
  simp only [updateMax]
  split_ifs <;> rfl

theorem updateMax_idem (cur : Option String) (d : String) :
    updateMax (updateMax cur d) d = updateMax cur d := by
  cases cur with
  | none => exact updateMax_some_self d
  | some m =>
    by_cases h : m = "" ∨ m < d
    · have e : updateMax (some m) d = some d := by
        simp only [updateMax]
        rw [if_pos h]
      rw [e]
      exact updateMax_some_self d
    · have e : updateMax (some m) d = some m := by
        simp only [updateMax]
        rw [if_neg h]
      rw [e]
      exact e

theorem extractStep_idem (c : FilterContext) (m : Metadata) :
    extractStep (extractStep c m) m = extractStep c m := by
  unfold extractStep
  cases h1 : truthyStr m.contact_name <;>
  cases h2 : truthyStr m.order_id <;>
  cases h3 : truthyStr m.product_name <;>
  cases h4 : m.invoice_id <;>
  cases h5 : truthyStr m.invoice_date <;>
    simp_all [updateMin_idem, updateMax_idem]

/-- C7: the metadata extractor on the empty hit sequence yields empty
customer, order, product and invoice sets and a null date range; a hit with
every field missing contributes nothing to any set or date bound; and a
duplicated hit contributes exactly once (set semantics), so the extractor is
total and coalesces duplicates. -/
theorem C7_extractor_empty_missing_duplicates (hits : List Hit) (h h2 : Hit)
    (hm : h.metadata = Metadata.empty) :
    extract_metadata_context [] = emptyContext 0 ∧
    ctxData (extract_metadata_context (h :: hits)) = ctxData (extract_metadata_context hits) ∧
    ctxData (extract_metadata_context (h2 :: h2 :: hits))
      = ctxData (extract_metadata_context (h2 :: hits)) := by
  refine ⟨rfl, ?_, ?_⟩
  · have e0 : extract_metadata_context (h :: hits)
        = List.foldl (fun ctx hh => extractStep ctx hh.metadata)
            (extractStep (emptyContext (hits.length + 1)) h.metadata) hits := rfl
    rw [e0, hm, extractStep_empty]
    have e1 : emptyContext (hits.length + 1)
        = { emptyContext hits.length with total_results := hits.length + 1 } := rfl
    rw [e1, extract_total_shift]
    rfl
  · have e0 : extract_metadata_context (h2 :: h2 :: hits)
        = List.foldl (fun ctx hh => extractStep ctx hh.metadata)
            (extractStep (extractStep (emptyContext (hits.length + 2)) h2.metadata)
              h2.metadata) hits := rfl
    rw [e0, extractStep_idem]
    have e1 : extract_metadata_context (h2 :: hits)
        = List.foldl (fun ctx hh => extractStep ctx hh.metadata)
            (extractStep (emptyContext (hits.length + 1)) h2.metadata) hits := rfl
    rw [e1]
    have e2 : extractStep (emptyContext (hits.length + 2)) h2.metadata
        = { extractStep (emptyContext (hits.length + 1)) h2.metadata with
            total_results := hits.length + 2 } := rfl
    rw [e2, extract_total_shift]
    rfl

theorem C7_witness :
    extract_metadata_context [] = emptyContext 0 ∧
    ctxData (extract_metadata_context [emptyHit]) = ctxData (extract_metadata_context []) ∧
    ctxData (extract_metadata_context [hitNamedCustomer, hitNamedCustomer])
      = ctxData (extract_metadata_context [hitNamedCustomer]) :=
  C7_extractor_empty_missing_duplicates [] emptyHit hitNamedCustomer rfl

/-- C8: structured-query execution never raises past its boundary: a
successful database call passes its rows through, and a failing one is
captured as the single-row error record, an ordinary data value, which the
answer composer then renders as the fixed no-data marker so the request still
produces a best-effort answer. -/
theorem C8_execution_failure_captured (msg : String) :
    (∀ rows, execute_sql_query (DbOutcome.ok rows) = rows) ∧
    execute_sql_query (DbOutcome.fail msg) = [errorRow msg] ∧
    (execute_sql_query (DbOutcome.fail msg)).length = 1 ∧
    format_sql_context (execute_sql_query (DbOutcome.fail msg))
      = "No structured data available" :=
  ⟨fun _ => rfl, rfl, rfl, rfl⟩

theorem contextLine_eq (r : Hit) :
    contextLine r = if qualifiesLC r then some (renderInvoiceLine r.metadata) else none := by
  unfold contextLine qualifiesLC
  by_cases h1 : (7 : ℚ)/10 < r.score
  · cases ht : r.metadata.type == some "invoice" <;> simp [h1, ht]
  · simp [h1]

theorem filterMap_contextLine (l : List Hit) :
    l.filterMap contextLine
      = (l.filter qualifiesLC).map (fun r => renderInvoiceLine r.metadata) := by
  induction l with
  | nil => rfl
  | cons x t ih =>
    rw [List.filterMap_cons, contextLine_eq]
    cases hq : qualifiesLC x <;> simp [List.filter_cons, hq, ih]

/-- C9 (amended): the composed semantic context depends only on the first
three retrieved hits; among those, exactly the hits scoring above 0.7 whose
record type is invoice contribute lines; and when no considered hit qualifies
the context is the fixed no-relevant-result marker rather than the empty
string. -/
theorem C9_context_threshold_amended (results : List Hit) :
    format_vector_context results = format_vector_context (results.take 3) ∧
    ((∀ r ∈ results.take 3, qualifiesLC r = false) →
      format_vector_context results = "No highly relevant results found.") ∧
    ((∃ r ∈ results.take 3, qualifiesLC r = true) →
      format_vector_context results = String.intercalate "\n"
        (((results.take 3).filter qualifiesLC).map (fun r => renderInvoiceLine r.metadata))) := by
  refine ⟨?_, ?_, ?_⟩
  · simp [format_vector_context, List.take_take]
  · intro hall
    have hf : (results.take 3).filter qualifiesLC = [] := by
      rw [List.filter_eq_nil_iff]
      intro a ha
      simp [hall a ha]
    simp [format_vector_context, filterMap_contextLine, hf]
  · rintro ⟨r, hr, hq⟩
    have hne : ((results.take 3).filter qualifiesLC).length ≠ 0 := by
      have : r ∈ (results.take 3).filter qualifiesLC := List.mem_filter.mpr ⟨hr, hq⟩
      intro h0
      rw [List.length_eq_zero] at h0
      rw [h0] at this
      exact absurd this (List.not_mem_nil r)
    simp only [format_vector_context, filterMap_contextLine]
    rw [if_neg]
    simp only [List.isEmpty_iff, List.map_eq_nil_iff]
    intro h0
    exact hne (by rw [h0]; rfl)

theorem C9_witness :
    format_vector_context [] = "No highly relevant results found." :=
  (C9_context_threshold_amended []).2.1 (by simp)

/-- C9 (counterexample): a single retrieved hit scores 0.9, above the 0.7
relevance threshold, yet because its record type is not invoice the composed
context omits it and equals the no-relevant-result marker, so the composed
context does not include exactly the above-threshold hits. -/
theorem C9_counterexample_high_scoring_hit_dropped :
    (7 : ℚ)/10 < hitLineItemHigh.score ∧
    format_vector_context [hitLineItemHigh] = "No highly relevant results found." := by
  constructor
  · norm_num [hitLineItemHigh]
  · have h7 : ((7 : ℚ)/10 < (9 : ℚ)/10) := by norm_num
    simp [format_vector_context, contextLine, hitLineItemHigh, Metadata.empty, h7]

end BusinessAssistant
